import Mathlib

/-!
Shallow embedding of the Amazon Q feature-dev/doc session core of
`aws-toolkit-vscode`: the Result Archive Reconciler, the Generation Poller,
the CodeGen state's `interact`/`generateCode`, and the top-level Session
state machine (`Session.send` / `Session.preloader`).

The implementation files (`packages/core/src/amazonq/session/sessionState.ts`,
`packages/core/src/amazonqFeatureDev/session/session.ts`, and the shared
poller) are not part of the provided sources; only their test files are.
The definitions below are therefore modelled from the specification,
constrained by the behaviour the in-repo tests pin down (fixture values,
call assertions, expected records).
-/

/-- Boolean string-prefix test: `strStartsWith p s` holds when `p` is a
prefix of `s`, computed on the underlying character lists. -/
def strStartsWith (p s : String) : Bool :=
  p.data.isPrefixOf s.data

/-- A VS Code workspace folder as the reconciler sees it: a root uri
(rendered as a path string), a display name and an index. -/
structure WorkspaceFolder where
  uri : String
  name : String
  index : Nat
deriving DecidableEq, Repr

/-- One entry of a Result Archive's `newFileContents`: the path inside the
result zip and the file content. -/
structure NewFileZipContents where
  zipFilePath : String
  fileContent : String
deriving DecidableEq, Repr

/-- The server's packaged diff: new file contents, deleted file paths and
code references. -/
structure ResultArchive where
  newFileContents : List NewFileZipContents
  deletedFiles : List String
  references : List String
deriving DecidableEq, Repr

/-- Typed error kinds surfaced to the caller of `interact`/`send`. -/
inductive SessionError where
  | NotStarted
  | PollTimeout (errorCode : String)
  | PollCancelled
  | GenerationFailed
  | ReconciliationFailure
deriving DecidableEq, Repr

/-- The reserved relative path the server uses to smuggle command-execution
log text inside the result archive (`RunCommandLogFileName` in
`sessionState.ts`; the doc test fixes it to this value). -/
def RunCommandLogFileName : String :=
  ".amazonq/dev/run_command.log"

/-- Modelled from the spec: the diagnostic-sink message `generateCode` emits
for diverted log content; the test asserts `logger.info` is called with
`sessionState: Run Command logs, <content>`. -/
def runCommandLogMessage (content : String) : String :=
  "sessionState: Run Command logs, " ++ content

/-- Modelled from the spec: `virtualMemoryUri` of `sessionState.ts` is not
under src/. The virtual location joins the upload id as a namespace segment
with the entry's relative path (the test expects
`vscode.Uri.file('/upload_test/other.ts')` for upload id `upload_test` and
relative path `other.ts`). -/
def virtualMemoryUri (uploadId relativePath : String) : String :=
  "/" ++ uploadId ++ "/" ++ relativePath

/-- Modelled from the spec: the relative path of an archive entry with
respect to its resolved workspace folder — the folder's root prefix is
stripped when it matches, otherwise the zip path is already relative and is
kept unchanged. -/
def relativeTo (folder : WorkspaceFolder) (path : String) : String :=
  if strStartsWith (folder.uri ++ "/") path then
    path.drop (folder.uri ++ "/").length
  else
    path

/-- Modelled from the spec: the longest-prefix workspace-folder resolution —
the owning folder of a path is the configured folder whose root is the
longest matching prefix, falling back to the first configured folder when no
root matches. Returns `none` only when no folder is configured at all. -/
def resolveFolderByPrefixes (folders : List WorkspaceFolder) (path : String) :
    Option WorkspaceFolder :=
  match (folders.filter fun f => strStartsWith (f.uri ++ "/") path) with
  | [] => folders.head?
  | m :: ms =>
    some (ms.foldl (fun best f => if best.uri.length < f.uri.length then f else best) m)

/-- A file-change record derived by the Reconciler: one per non-excluded
entry of the Result Archive, never mutated by the Poller. -/
structure NewFileInfo where
  zipFilePath : String
  fileContent : String
  relativePath : String
  workspaceFolder : WorkspaceFolder
  virtualMemoryUri : String
  changeApplied : Bool
  rejected : Bool
deriving DecidableEq, Repr

/-- A deleted-file record: same path resolution as a file-change record but
no content is fetched. -/
structure DeletedFileInfo where
  zipFilePath : String
  relativePath : String
  workspaceFolder : WorkspaceFolder
  virtualMemoryUri : String
deriving DecidableEq, Repr

/-- Modelled from the spec: the per-entry step of `registerNewFiles` — resolve
the owning workspace folder through the supplied resolution function, compute
the relative path and the virtual location, and create the record with
`changeApplied := false` and `rejected := false`. An unresolvable folder is a
fatal `ReconciliationFailure`. -/
def toNewFileInfo (uploadId : String) (resolveFolder : String → Option WorkspaceFolder)
    (f : NewFileZipContents) : Except SessionError NewFileInfo :=
  match resolveFolder f.zipFilePath with
  | none => .error .ReconciliationFailure
  | some wf =>
    let rel := relativeTo wf f.zipFilePath
    .ok { zipFilePath := f.zipFilePath
          fileContent := f.fileContent
          relativePath := rel
          workspaceFolder := wf
          virtualMemoryUri := virtualMemoryUri uploadId rel
          changeApplied := false
          rejected := false }

/-- Modelled from the spec: `registerNewFiles` of `amazonq/util/files.ts` is
not under src/ (only its callers/stubs are). It maps every entry of the
already log-filtered `newFileContents` to a file-change record, preserving
the archive's own ordering. -/
def registerNewFiles (uploadId : String) (resolveFolder : String → Option WorkspaceFolder) :
    List NewFileZipContents → Except SessionError (List NewFileInfo)
  | [] => .ok []
  | f :: rest =>
    match toNewFileInfo uploadId resolveFolder f with
    | .error e => .error e
    | .ok info =>
      match registerNewFiles uploadId resolveFolder rest with
      | .error e => .error e
      | .ok infos => .ok (info :: infos)

/-- Modelled from the spec: the per-path step of `getDeletedFileInfos` —
same path-resolution logic as for new files, no content. -/
def toDeletedFileInfo (uploadId : String) (resolveFolder : String → Option WorkspaceFolder)
    (path : String) : Except SessionError DeletedFileInfo :=
  match resolveFolder path with
  | none => .error .ReconciliationFailure
  | some wf =>
    let rel := relativeTo wf path
    .ok { zipFilePath := path
          relativePath := rel
          workspaceFolder := wf
          virtualMemoryUri := virtualMemoryUri uploadId rel }

/-- Modelled from the spec: `getDeletedFileInfos` of `amazonq/util/files.ts`
is not under src/. Deleted-file entries become records through the same
path-resolution logic, in the archive's order. -/
def getDeletedFileInfos (uploadId : String) (resolveFolder : String → Option WorkspaceFolder) :
    List String → Except SessionError (List DeletedFileInfo)
  | [] => .ok []
  | p :: rest =>
    match toDeletedFileInfo uploadId resolveFolder p with
    | .error e => .error e
    | .ok info =>
      match getDeletedFileInfos uploadId resolveFolder rest with
      | .error e => .error e
      | .ok infos => .ok (info :: infos)

/-- The observable outcome of `generateCode`'s reconciliation phase: the
returned records plus the effect traces (diagnostic-sink calls and file
writes, each a `(location, content)` pair). -/
structure GenerateCodeOutput where
  newFiles : List NewFileInfo
  deletedFiles : List DeletedFileInfo
  references : List String
  loggerInfoCalls : List String
  writeFileCalls : List (String × String)
deriving DecidableEq, Repr

/-- Modelled from the spec: the reconciliation phase of
`CodeGenBase.generateCode` (`sessionState.ts`, not under src/). Scans
`newFileContents` for the reserved log path: when present, the first such
entry's content is sent once to the diagnostic sink, written to
`<first workspace root>/<log path>` (the doc test asserts this
`fs.writeFile` call), and every log-path entry is excluded from the
returned records; when absent, neither sink nor write surface is touched.
The remaining entries and the deleted files go through the Reconciler. -/
def generateCodeResults (uploadId : String) (workspaceRoots : List String)
    (resolveFolder : String → Option WorkspaceFolder) (archive : ResultArchive) :
    Except SessionError GenerateCodeOutput :=
  match registerNewFiles uploadId resolveFolder
      (archive.newFileContents.filter fun f => !(f.zipFilePath == RunCommandLogFileName)) with
  | .error e => .error e
  | .ok newFiles =>
    match getDeletedFileInfos uploadId resolveFolder archive.deletedFiles with
    | .error e => .error e
    | .ok deleted =>
      .ok { newFiles := newFiles
            deletedFiles := deleted
            references := archive.references
            loggerInfoCalls :=
              match archive.newFileContents.find?
                  (fun f => f.zipFilePath == RunCommandLogFileName) with
              | some lf => [runCommandLogMessage lf.fileContent]
              | none => []
            writeFileCalls :=
              match archive.newFileContents.find?
                  (fun f => f.zipFilePath == RunCommandLogFileName) with
              | some lf =>
                [(workspaceRoots.headD "" ++ "/" ++ RunCommandLogFileName, lf.fileContent)]
              | none => [] }

/-- Generation status reported by the remote service's status query. -/
inductive CodeGenerationStatus where
  | InProgress
  | Complete
  | Failed
deriving DecidableEq, Repr

/-- One response of `getCodeGeneration`: the status plus the informational
iteration counters. -/
structure CodeGenerationResult where
  status : CodeGenerationStatus
  codeGenerationRemainingIterationCount : Nat
  codeGenerationTotalIterationCount : Nat
deriving DecidableEq, Repr

/-- Final state of one poll execution:
`Requested → Polling → ` one of these. -/
inductive PollOutcome where
  | Completed (result : CodeGenerationResult)
  | Failed (result : CodeGenerationResult)
  | TimedOut (errorCode : String)
  | Cancelled
deriving DecidableEq, Repr

/-- Observable trace of one poll execution: its outcome, the wall-clock
milliseconds spent sleeping, and the iteration indices at which a remote
status query was actually issued, in order. -/
structure PollTrace where
  outcome : PollOutcome
  elapsedMs : Nat
  statusCalls : List Nat
deriving DecidableEq, Repr

/-- Modelled from the spec: the poll loop of the Generation Poller
(`pollCodeGenerationStatus` in `sessionState.ts`, not under src/). Each
iteration first checks the cancellation token, then the wall-clock deadline,
then sleeps one interval and issues the status query; a terminal status ends
the poll, otherwise it repeats. `fuel` is a structural bound on the number
of iterations; the driver below supplies enough fuel that it is never
exhausted before the deadline check fires. -/
def pollCodeGenLoop (getStatus : Nat → CodeGenerationResult) (isCancelled : Nat → Bool)
    (intervalMs deadlineMs : Nat) (errorCode : String) :
    Nat → Nat → Nat → List Nat → PollTrace
  | fuel, iter, elapsed, calls =>
    if isCancelled iter then
      ⟨.Cancelled, elapsed, calls.reverse⟩
    else if deadlineMs ≤ elapsed then
      ⟨.TimedOut errorCode, elapsed, calls.reverse⟩
    else
      match fuel with
      | 0 => ⟨.TimedOut errorCode, elapsed, calls.reverse⟩
      | fuel' + 1 =>
        let status := getStatus iter
        let elapsed' := elapsed + intervalMs
        let calls' := iter :: calls
        match status.status with
        | .Complete => ⟨.Completed status, elapsed', calls'.reverse⟩
        | .Failed => ⟨.Failed status, elapsed', calls'.reverse⟩
        | .InProgress =>
          pollCodeGenLoop getStatus isCancelled intervalMs deadlineMs errorCode
            fuel' (iter + 1) elapsed' calls'

/-- Modelled from the spec: the Generation Poller's entry point — polls from
elapsed time zero with enough fuel (`deadline / interval + 1` iterations)
that the loop always reaches a terminal status, the cancellation check, or
the wall-clock deadline. -/
def pollCodeGeneration (getStatus : Nat → CodeGenerationResult) (isCancelled : Nat → Bool)
    (intervalMs deadlineMs : Nat) (errorCode : String) : PollTrace :=
  pollCodeGenLoop getStatus isCancelled intervalMs deadlineMs errorCode
    (deadlineMs / intervalMs + 1) 0 0 []

/-- A remote call a CodeGen-family `interact` may issue. -/
inductive RemoteCall where
  | startCodeGeneration
  | getCodeGeneration (iteration : Nat)
  | exportResultArchive
deriving DecidableEq, Repr

/-- Generation Config held by a CodeGen-family state: conversation and
upload ids are `none` until the remote handshake succeeds. -/
structure CodeGenConfig where
  conversationId : Option String
  uploadId : Option String
  workspaceRoots : List String
deriving DecidableEq, Repr

/-- The remote generation service as pure response functions: the status
returned at each poll iteration and the archive served by
`exportResultArchive`. -/
structure RemoteService where
  getCodeGeneration : Nat → CodeGenerationResult
  resultArchive : ResultArchive

/-- Observable outcome of one CodeGen `interact` call: the result delivered
to the caller plus the traces of remote calls, file writes and
diagnostic-sink calls. -/
structure CodeGenInteractResult where
  result : Except SessionError (List NewFileInfo)
  remoteCalls : List RemoteCall
  writeFileCalls : List (String × String)
  loggerInfoCalls : List String

/-- Modelled from the spec: `CodeGenBase.interact`'s code-generation cycle
(`sessionState.ts`, not under src/). First validates that the conversation
and upload ids are established — failing with `NotStarted` before any
remote call otherwise — then issues the start call, runs the Poller, and on
a completed poll fetches the Result Archive and reconciles it; a failed,
timed-out or cancelled poll fails with the corresponding error kind and
performs no fetch, no write and no sink call. -/
def codeGenInteract (config : CodeGenConfig) (service : RemoteService)
    (resolveFolder : String → Option WorkspaceFolder) (isCancelled : Nat → Bool)
    (intervalMs deadlineMs : Nat) (errorCode : String) : CodeGenInteractResult :=
  match config.conversationId, config.uploadId with
  | some _, some uploadId =>
    let trace := pollCodeGeneration service.getCodeGeneration isCancelled
      intervalMs deadlineMs errorCode
    let pollCalls := RemoteCall.startCodeGeneration ::
      trace.statusCalls.map RemoteCall.getCodeGeneration
    match trace.outcome with
    | .Completed _ =>
      match generateCodeResults uploadId config.workspaceRoots resolveFolder
          service.resultArchive with
      | .error e =>
        { result := .error e
          remoteCalls := pollCalls ++ [RemoteCall.exportResultArchive]
          writeFileCalls := []
          loggerInfoCalls := [] }
      | .ok out =>
        { result := .ok out.newFiles
          remoteCalls := pollCalls ++ [RemoteCall.exportResultArchive]
          writeFileCalls := out.writeFileCalls
          loggerInfoCalls := out.loggerInfoCalls }
    | .Failed _ =>
      { result := .error .GenerationFailed, remoteCalls := pollCalls
        writeFileCalls := [], loggerInfoCalls := [] }
    | .TimedOut c =>
      { result := .error (.PollTimeout c), remoteCalls := pollCalls
        writeFileCalls := [], loggerInfoCalls := [] }
    | .Cancelled =>
      { result := .error .PollCancelled, remoteCalls := pollCalls
        writeFileCalls := [], loggerInfoCalls := [] }
  | _, _ =>
    { result := .error .NotStarted, remoteCalls := []
      writeFileCalls := [], loggerInfoCalls := [] }

/-- The interaction value a State's `interact` hands back to the Session's
caller. -/
structure Interaction where
  content : String
deriving DecidableEq, Repr

/-- Modelled from the spec: the Session's polymorphic State
(`ConversationNotStartedState`, `PrepareCodeGenState`, `CodeGenState` of
`sessionState.ts`, not under src/), each variant carrying the data it needs
to resume. -/
inductive SessionState where
  | ConversationNotStartedState (tabID : String)
  | PrepareCodeGenState (config : CodeGenConfig) (filePaths : List NewFileInfo)
      (deletedFiles : List DeletedFileInfo) (references : List String)
      (tabID : String) (currentIteration : Nat)
  | CodeGenState (config : CodeGenConfig) (tabID : String) (currentIteration : Nat)
deriving DecidableEq, Repr

/-- Modelled from the spec: the Session (`session.ts`, not under src/) —
the top-level state container holding the conversation/upload ids and the
single current State. -/
structure Session where
  tabID : String
  state : SessionState
  conversationId : Option String
  uploadId : Option String
deriving DecidableEq, Repr

/-- Modelled from the spec: Session construction — a new Session starts in
`ConversationNotStartedState` with no conversation or upload id. -/
def createSession (tabID : String) : Session :=
  { tabID := tabID
    state := SessionState.ConversationNotStartedState tabID
    conversationId := none
    uploadId := none }

/-- The remote client operations `preloader` uses for the one-time
conversation/upload bootstrap, as pure outcomes. -/
structure FeatureDevClient where
  createConversation : Except SessionError String
  createUploadUrl : Except SessionError String

/-- Modelled from the spec: `Session.preloader` (`session.ts`, not under
src/) — performs the one-time conversation/upload bootstrap and transitions
from `ConversationNotStartedState` directly into `PrepareCodeGenState`; in
any other state it is a no-op. -/
def Session.preloader (client : FeatureDevClient) (s : Session) (_msg : String) :
    Except SessionError Session :=
  match s.state with
  | .ConversationNotStartedState tab =>
    match client.createConversation with
    | .error e => .error e
    | .ok cid =>
      match client.createUploadUrl with
      | .error e => .error e
      | .ok uid =>
        .ok { s with
              conversationId := some cid
              uploadId := some uid
              state := SessionState.PrepareCodeGenState
                ⟨some cid, some uid, []⟩ [] [] [] tab 0 }
  | _ => .ok s

/-- Modelled from the spec: `Session.send` (`session.ts`, not under src/) —
awaits the current State's `interact`; on success it replaces the current
state with the returned next state and returns the interaction; on failure
it re-raises the failure and the Session keeps the pre-call State. The
current State's `interact` is supplied by the caller, as in the test that
stubs `PrepareCodeGenState.prototype.interact`. -/
def Session.send
    (interact : SessionState → String → Except SessionError (Interaction × SessionState))
    (s : Session) (msg : String) : Except SessionError Interaction × Session :=
  match interact s.state msg with
  | .error e => (.error e, s)
  | .ok (i, next) => (.ok i, { s with state := next })

deriving instance DecidableEq for Except

/-- The single workspace folder both test suites configure. -/
def testFolder : WorkspaceFolder :=
  { uri := "/path/to/testworkspacefolder", name := "testworkspacefolder", index := 0 }

/-- The workspace-folder resolution the tests stub: longest-prefix match
over the single test folder. -/
def testResolve : String → Option WorkspaceFolder :=
  resolveFolderByPrefixes [testFolder]

/-- The archive fixture of the test with log entry: the reserved log entry
followed by `other.ts`. -/
def testArchiveWithLog : ResultArchive :=
  { newFileContents := [⟨RunCommandLogFileName, "Log content"⟩, ⟨"other.ts", "other content"⟩]
    deletedFiles := []
    references := [] }

/-- The archive fixture of the test without a log entry: only `file1.ts`. -/
def testArchiveNoLog : ResultArchive :=
  { newFileContents := [⟨"file1.ts", "content1"⟩]
    deletedFiles := []
    references := [] }

/-- The file-change record the with-log test expects for `other.ts`. -/
def testOtherRecord : NewFileInfo :=
  { zipFilePath := "other.ts"
    fileContent := "other content"
    relativePath := "other.ts"
    workspaceFolder := testFolder
    virtualMemoryUri := "/upload_test/other.ts"
    changeApplied := false
    rejected := false }
/-- The `generateCode` output on the with-log archive fixture. -/
def testOutWithLog : GenerateCodeOutput :=
  { newFiles := [testOtherRecord]
    deletedFiles := []
    references := []
    loggerInfoCalls := ["sessionState: Run Command logs, Log content"]
    writeFileCalls :=
      [("/path/to/testworkspacefolder/.amazonq/dev/run_command.log", "Log content")] }
/-- The stubbed remote client of the state-flow test: conversation id
`conversation-id`, upload id `upload-id`. -/
def testClient : FeatureDevClient :=
  { createConversation := .ok "conversation-id"
    createUploadUrl := .ok "upload-id" }
/-- The `PrepareCodeGenState` the state-flow test's stubbed `interact`
returns as next state. -/
def testNextState : SessionState :=
  SessionState.PrepareCodeGenState
    ⟨some "conversation-id", some "upload-id", []⟩ [] [] [] "tab-id" 0
/-- The session produced by `preloader` on a fresh `tab-id` session against
the stubbed client. -/
def testPreloadedSession : Session :=
  { tabID := "tab-id"
    state := testNextState
    conversationId := some "conversation-id"
    uploadId := some "upload-id" }
/-- The file-change record the no-log test expects for `file1.ts`. -/
def testFile1Record : NewFileInfo :=
  { zipFilePath := "file1.ts"
    fileContent := "content1"
    relativePath := "file1.ts"
    workspaceFolder := testFolder
    virtualMemoryUri := "/upload_test/file1.ts"
    changeApplied := false
    rejected := false }
/-- The `generateCode` output on the no-log archive fixture. -/
def testOutNoLog : GenerateCodeOutput :=
  { newFiles := [testFile1Record]
    deletedFiles := []
    references := []
    loggerInfoCalls := []
    writeFileCalls := [] }
theorem toNewFileInfo_fields (uploadId : String)
    (resolveFolder : String → Option WorkspaceFolder) (e : NewFileZipContents)
    (f : NewFileInfo) (h : toNewFileInfo uploadId resolveFolder e = .ok f) :
    f.zipFilePath = e.zipFilePath ∧ f.fileContent = e.fileContent ∧
    f.changeApplied = false ∧ f.rejected = false ∧
    f.virtualMemoryUri = virtualMemoryUri uploadId f.relativePath := by
  unfold toNewFileInfo at h
  cases hr : resolveFolder e.zipFilePath with
  | none => rw [hr] at h; cases h
  | some wf =>
    rw [hr] at h
    injection h with h
    subst h
    exact ⟨rfl, rfl, rfl, rfl, rfl⟩

theorem registerNewFiles_mem (uploadId : String)
    (resolveFolder : String → Option WorkspaceFolder) (l : List NewFileZipContents)
    (out : List NewFileInfo) (h : registerNewFiles uploadId resolveFolder l = .ok out)
    (f : NewFileInfo) (hf : f ∈ out) :
    ∃ e ∈ l, toNewFileInfo uploadId resolveFolder e = .ok f := by
  induction l generalizing out with
  | nil =>
    unfold registerNewFiles at h
    injection h with h
    subst h
    cases hf
  | cons a rest ih =>
    unfold registerNewFiles at h
    cases ha : toNewFileInfo uploadId resolveFolder a with
    | error e => rw [ha] at h; cases h
    | ok info =>
      rw [ha] at h
      cases hrest : registerNewFiles uploadId resolveFolder rest with
      | error e => rw [hrest] at h; cases h
      | ok infos =>
        rw [hrest] at h
        injection h with h
        subst h
        rcases List.mem_cons.mp hf with hfa | hfr
        · exact ⟨a, List.mem_cons_self a rest, hfa ▸ ha⟩
        · obtain ⟨e, he, hee⟩ := ih infos hrest hfr
          exact ⟨e, List.mem_cons_of_mem a he, hee⟩

theorem registerNewFiles_map_zip (uploadId : String)
    (resolveFolder : String → Option WorkspaceFolder) (l : List NewFileZipContents)
    (out : List NewFileInfo) (h : registerNewFiles uploadId resolveFolder l = .ok out) :
    out.map (fun f => f.zipFilePath) = l.map (fun e => e.zipFilePath) := by
  induction l generalizing out with
  | nil =>
    unfold registerNewFiles at h
    injection h with h
    subst h
    rfl
  | cons a rest ih =>
    unfold registerNewFiles at h
    cases ha : toNewFileInfo uploadId resolveFolder a with
    | error e => rw [ha] at h; cases h
    | ok info =>
      rw [ha] at h
      cases hrest : registerNewFiles uploadId resolveFolder rest with
      | error e => rw [hrest] at h; cases h
      | ok infos =>
        rw [hrest] at h
        injection h with h
        subst h
        simp only [List.map_cons]
        exact congrArg₂ List.cons (toNewFileInfo_fields _ _ _ _ ha).1 (ih infos hrest)

theorem getDeletedFileInfos_map_zip (uploadId : String)
    (resolveFolder : String → Option WorkspaceFolder) (l : List String)
    (out : List DeletedFileInfo) (h : getDeletedFileInfos uploadId resolveFolder l = .ok out) :
    out.map (fun f => f.zipFilePath) = l := by
  induction l generalizing out with
  | nil =>
    unfold getDeletedFileInfos at h
    injection h with h
    subst h
    rfl
  | cons a rest ih =>
    unfold getDeletedFileInfos at h
    cases ha : toDeletedFileInfo uploadId resolveFolder a with
    | error e => rw [ha] at h; cases h
    | ok info =>
      rw [ha] at h
      cases hrest : getDeletedFileInfos uploadId resolveFolder rest with
      | error e => rw [hrest] at h; cases h
      | ok infos =>
        rw [hrest] at h
        injection h with h
        subst h
        simp only [List.map_cons]
        refine congrArg₂ List.cons ?_ (ih infos hrest)
        unfold toDeletedFileInfo at ha
        cases hr : resolveFolder a with
        | none => rw [hr] at ha; cases ha
        | some wf =>
          rw [hr] at ha
          injection ha with ha
          subst ha
          rfl

theorem generateCodeResults_ok (uploadId : String) (workspaceRoots : List String)
    (resolveFolder : String → Option WorkspaceFolder) (archive : ResultArchive)
    (out : GenerateCodeOutput)
    (h : generateCodeResults uploadId workspaceRoots resolveFolder archive = .ok out) :
    registerNewFiles uploadId resolveFolder
        (archive.newFileContents.filter fun f => !(f.zipFilePath == RunCommandLogFileName))
      = .ok out.newFiles ∧
    getDeletedFileInfos uploadId resolveFolder archive.deletedFiles = .ok out.deletedFiles ∧
    out.references = archive.references ∧
    out.loggerInfoCalls =
      (match archive.newFileContents.find? (fun f => f.zipFilePath == RunCommandLogFileName) with
       | some lf => [runCommandLogMessage lf.fileContent]
       | none => []) ∧
    out.writeFileCalls =
      (match archive.newFileContents.find? (fun f => f.zipFilePath == RunCommandLogFileName) with
       | some lf => [(workspaceRoots.headD "" ++ "/" ++ RunCommandLogFileName, lf.fileContent)]
       | none => []) := by
  unfold generateCodeResults at h
  cases hreg : registerNewFiles uploadId resolveFolder
      (archive.newFileContents.filter fun f => !(f.zipFilePath == RunCommandLogFileName)) with
  | error e => rw [hreg] at h; cases h
  | ok newFiles =>
    rw [hreg] at h
    cases hdel : getDeletedFileInfos uploadId resolveFolder archive.deletedFiles with
    | error e => rw [hdel] at h; cases h
    | ok deleted =>
      rw [hdel] at h
      injection h with h
      subst h
      exact ⟨rfl, rfl, rfl, rfl, rfl⟩

/-- C1: for every Result Archive, if some entry of `newFileContents` has the
reserved log path, the file-change list returned by `generateCode` excludes
that entry and the entry's content is delivered exactly once to the
diagnostic sink; if no entry has the reserved log path, the sink is never
invoked and all entries appear in the returned list. -/
theorem generateCode_log_exclusion (uploadId : String) (workspaceRoots : List String)
    (resolveFolder : String → Option WorkspaceFolder) (archive : ResultArchive)
    (out : GenerateCodeOutput)
    (h : generateCodeResults uploadId workspaceRoots resolveFolder archive = .ok out) :
    ((∃ e ∈ archive.newFileContents, e.zipFilePath = RunCommandLogFileName) →
       (∀ f ∈ out.newFiles, f.zipFilePath ≠ RunCommandLogFileName) ∧
       (∃ e ∈ archive.newFileContents, e.zipFilePath = RunCommandLogFileName ∧
          out.loggerInfoCalls = [runCommandLogMessage e.fileContent])) ∧
    ((∀ e ∈ archive.newFileContents, e.zipFilePath ≠ RunCommandLogFileName) →
       out.loggerInfoCalls = [] ∧
       out.newFiles.map (fun f => f.zipFilePath)
         = archive.newFileContents.map (fun e => e.zipFilePath)) := by
  obtain ⟨hreg, hdel, href, hlog, hwrite⟩ :=
    generateCodeResults_ok uploadId workspaceRoots resolveFolder archive out h
  constructor
  · rintro ⟨e, he, hepath⟩
    have hsome : (archive.newFileContents.find?
        (fun f => f.zipFilePath == RunCommandLogFileName)).isSome :=
      List.find?_isSome.mpr ⟨e, he, by simp [hepath]⟩
    obtain ⟨lf, hlf⟩ := Option.isSome_iff_exists.mp hsome
    refine ⟨?_, lf, List.mem_of_find?_eq_some hlf, ?_, ?_⟩
    · intro f hf hcontra
      obtain ⟨e', he', hee⟩ := registerNewFiles_mem _ _ _ _ hreg f hf
      have h1 := (toNewFileInfo_fields _ _ _ _ hee).1
      have h2 := (List.mem_filter.mp he').2
      rw [h1] at hcontra
      simp [hcontra] at h2
    · have := List.find?_some hlf
      simpa using this
    · rw [hlog, hlf]
  · intro hall
    have hnone : archive.newFileContents.find?
        (fun f => f.zipFilePath == RunCommandLogFileName) = none := by
      apply List.find?_eq_none.mpr
      intro x hx
      simpa using hall x hx
    refine ⟨by rw [hlog, hnone], ?_⟩
    have hfilter : archive.newFileContents.filter
        (fun f => !(f.zipFilePath == RunCommandLogFileName)) = archive.newFileContents := by
      apply List.filter_eq_self.mpr
      intro a ha
      simpa using hall a ha
    have hmap := registerNewFiles_map_zip _ _ _ _ hreg
    rw [hfilter] at hmap
    exact hmap



/-- Witness for C1 at the with-log archive fixture of the tests. -/
theorem generateCode_log_exclusion_witness :
    (∀ f ∈ testOutWithLog.newFiles, f.zipFilePath ≠ RunCommandLogFileName) ∧
    (∃ e ∈ testArchiveWithLog.newFileContents, e.zipFilePath = RunCommandLogFileName ∧
       testOutWithLog.loggerInfoCalls = [runCommandLogMessage e.fileContent]) :=
  (generateCode_log_exclusion "upload_test" ["/path/to/testworkspacefolder"]
      testResolve testArchiveWithLog testOutWithLog (by decide)).1 (by decide)

/-- C2: for every Session and message, if the current State's `interact`
rejects during `Session.send`, the failure is re-raised to the caller and
the Session still holds the pre-call state — no state transition occurs. -/
theorem send_keeps_state_on_failure
    (interact : SessionState → String → Except SessionError (Interaction × SessionState))
    (s : Session) (msg : String) (e : SessionError)
    (h : interact s.state msg = .error e) :
    (Session.send interact s msg).1 = .error e ∧
    ((Session.send interact s msg).2 = s ∧
     (Session.send interact s msg).2.state = s.state) := by
  unfold Session.send
  rw [h]
  exact ⟨rfl, rfl, rfl⟩

/-- Witness for C2: a send whose `interact` rejects leaves the fresh session
untouched and re-raises the error. -/
theorem send_keeps_state_on_failure_witness :
    (Session.send (fun _ _ => .error .GenerationFailed) (createSession "tab-id")
        "Test message").1 = .error .GenerationFailed ∧
    ((Session.send (fun _ _ => .error .GenerationFailed) (createSession "tab-id")
        "Test message").2 = createSession "tab-id" ∧
     (Session.send (fun _ _ => .error .GenerationFailed) (createSession "tab-id")
        "Test message").2.state = (createSession "tab-id").state) :=
  send_keeps_state_on_failure (fun _ _ => .error .GenerationFailed)
    (createSession "tab-id") "Test message" .GenerationFailed rfl

/-- C3: a newly created Session starts in `ConversationNotStartedState`; a
successful `preloader` transitions it directly into `PrepareCodeGenState`;
and a successful `send` runs the current State's `interact`, replaces the
current state with the returned next state and returns the interaction. -/
theorem session_state_flow :
    (∀ tab, (createSession tab).state = SessionState.ConversationNotStartedState tab) ∧
    (∀ (client : FeatureDevClient) (s : Session) (msg : String) (s' : Session),
       (∃ tab, s.state = SessionState.ConversationNotStartedState tab) →
       Session.preloader client s msg = .ok s' →
       ∃ cfg fps dfs refs tab,
         s'.state = SessionState.PrepareCodeGenState cfg fps dfs refs tab 0) ∧
    (∀ (interact : SessionState → String → Except SessionError (Interaction × SessionState))
       (s : Session) (msg : String) (i : Interaction) (next : SessionState),
       interact s.state msg = .ok (i, next) →
       Session.send interact s msg = (.ok i, { s with state := next })) := by
  refine ⟨fun tab => rfl, ?_, ?_⟩
  · rintro client s msg s' ⟨tab, htab⟩ h
    unfold Session.preloader at h
    rw [htab] at h
    cases hc : client.createConversation with
    | error e => rw [hc] at h; cases h
    | ok cid =>
      rw [hc] at h
      cases hu : client.createUploadUrl with
      | error e => rw [hu] at h; cases h
      | ok uid =>
        rw [hu] at h
        injection h with h
        subst h
        exact ⟨_, _, _, _, _, rfl⟩
  · intro interact s msg i next h
    unfold Session.send
    rw [h]




/-- Witness for C3: the state-flow fixture — fresh session, preloader
bootstrap, then a send with a stubbed successful `interact`. -/
theorem session_state_flow_witness :
    (createSession "tab-id").state = SessionState.ConversationNotStartedState "tab-id" ∧
    (∃ cfg fps dfs refs tab,
       testPreloadedSession.state = SessionState.PrepareCodeGenState cfg fps dfs refs tab 0) ∧
    Session.send (fun _ _ => .ok (⟨"Test message"⟩, testNextState))
        (createSession "tab-id") "Test message"
      = (.ok ⟨"Test message"⟩, { createSession "tab-id" with state := testNextState }) :=
  ⟨session_state_flow.1 "tab-id",
   session_state_flow.2.1 testClient (createSession "tab-id") "Initial message"
     testPreloadedSession ⟨"tab-id", rfl⟩ (by decide),
   session_state_flow.2.2 (fun _ _ => .ok (⟨"Test message"⟩, testNextState))
     (createSession "tab-id") "Test message" ⟨"Test message"⟩ testNextState rfl⟩

/-- C4 counterexample: on the with-log archive fixture, `generateCode` itself
issues a file write — the run-command log is written to
`<first workspace root>/<reserved log path>` (the doc-session test asserts
exactly this `fs.writeFile` call), so the core's write-call trace is not
empty and writes are not confined to the caller's completion hook. -/
theorem generateCode_writes_log_counterexample :
    generateCodeResults "upload_test" ["/path/to/testworkspacefolder"] testResolve
        testArchiveWithLog = .ok testOutWithLog ∧
    testOutWithLog.writeFileCalls ≠ [] := by
  exact ⟨by decide, by decide⟩

/-- C4 amended: the only file write the core performs is the reserved log
file — every write `generateCode` issues targets
`<first workspace root>/<reserved log path>` and carries the content of a
log-path entry of the archive; when no entry has the reserved log path,
`generateCode` performs no write at all, and all other file changes are left
to the caller's completion hook. -/
theorem generateCode_write_surface (uploadId : String) (workspaceRoots : List String)
    (resolveFolder : String → Option WorkspaceFolder) (archive : ResultArchive)
    (out : GenerateCodeOutput)
    (h : generateCodeResults uploadId workspaceRoots resolveFolder archive = .ok out) :
    (∀ wc ∈ out.writeFileCalls,
       wc.1 = workspaceRoots.headD "" ++ "/" ++ RunCommandLogFileName ∧
       ∃ e ∈ archive.newFileContents,
         e.zipFilePath = RunCommandLogFileName ∧ wc.2 = e.fileContent) ∧
    ((∀ e ∈ archive.newFileContents, e.zipFilePath ≠ RunCommandLogFileName) →
       out.writeFileCalls = []) := by
  obtain ⟨hreg, hdel, href, hlog, hwrite⟩ :=
    generateCodeResults_ok uploadId workspaceRoots resolveFolder archive out h
  constructor
  · intro wc hwc
    rw [hwrite] at hwc
    cases hfind : archive.newFileContents.find?
        (fun f => f.zipFilePath == RunCommandLogFileName) with
    | none => rw [hfind] at hwc; cases hwc
    | some lf =>
      rw [hfind] at hwc
      rcases List.mem_singleton.mp hwc with rfl
      refine ⟨rfl, lf, List.mem_of_find?_eq_some hfind, ?_, rfl⟩
      have := List.find?_some hfind
      simpa using this
  · intro hall
    have hnone : archive.newFileContents.find?
        (fun f => f.zipFilePath == RunCommandLogFileName) = none := by
      apply List.find?_eq_none.mpr
      intro x hx
      simpa using hall x hx
    rw [hwrite, hnone]



/-- Witness for C4's amended theorem at the no-log archive fixture: no log
entry, no write. -/
theorem generateCode_write_surface_witness :
    (∀ e ∈ testArchiveNoLog.newFileContents, e.zipFilePath ≠ RunCommandLogFileName) ∧
    testOutNoLog.writeFileCalls = [] :=
  ⟨by decide,
   (generateCode_write_surface "upload_test" ["/path/to/testworkspacefolder"]
      testResolve testArchiveNoLog testOutNoLog (by decide)).2 (by decide)⟩

theorem pollCodeGenLoop_timeout (getStatus : Nat → CodeGenerationResult)
    (isCancelled : Nat → Bool) (intervalMs deadlineMs : Nat) (errorCode : String)
    (hnc : ∀ j, isCancelled j = false)
    (hst : ∀ j, (getStatus j).status = CodeGenerationStatus.InProgress) :
    ∀ (fuel iter elapsed : Nat) (calls : List Nat),
      elapsed < deadlineMs + intervalMs →
      deadlineMs ≤ elapsed + fuel * intervalMs →
      (pollCodeGenLoop getStatus isCancelled intervalMs deadlineMs errorCode
          fuel iter elapsed calls).outcome = PollOutcome.TimedOut errorCode ∧
      deadlineMs ≤ (pollCodeGenLoop getStatus isCancelled intervalMs deadlineMs errorCode
          fuel iter elapsed calls).elapsedMs ∧
      (pollCodeGenLoop getStatus isCancelled intervalMs deadlineMs errorCode
          fuel iter elapsed calls).elapsedMs < deadlineMs + intervalMs := by
  intro fuel
  induction fuel with
  | zero =>
    intro iter elapsed calls h1 h2
    have hd : deadlineMs ≤ elapsed := by omega
    unfold pollCodeGenLoop
    rw [hnc iter, if_neg Bool.false_ne_true, if_pos hd]
    exact ⟨rfl, hd, h1⟩
  | succ fuel' ih =>
    intro iter elapsed calls h1 h2
    unfold pollCodeGenLoop
    rw [hnc iter, if_neg Bool.false_ne_true]
    by_cases hd : deadlineMs ≤ elapsed
    · rw [if_pos hd]
      exact ⟨rfl, hd, h1⟩
    · rw [if_neg hd]
      dsimp only
      rw [hst iter]
      rw [Nat.succ_mul] at h2
      exact ih (iter + 1) (elapsed + intervalMs) (iter :: calls) (by omega) (by omega)

/-- C5: if `getCodeGeneration` never returns a terminal status and the token
is never signaled, the poll loop terminates at or after the configured
deadline and before deadline plus one poll interval, with the `TimedOut`
outcome carrying the caller-supplied error code; the CodeGen `interact` then
fails with `PollTimeout` carrying that same code (the value of
`getTimeoutErrorCode`). -/
theorem poll_timeout_bound (getStatus : Nat → CodeGenerationResult)
    (isCancelled : Nat → Bool) (intervalMs deadlineMs : Nat) (errorCode : String)
    (hpos : 0 < intervalMs)
    (hst : ∀ j, (getStatus j).status = CodeGenerationStatus.InProgress)
    (hnc : ∀ j, isCancelled j = false) :
    (pollCodeGeneration getStatus isCancelled intervalMs deadlineMs errorCode).outcome
      = PollOutcome.TimedOut errorCode ∧
    deadlineMs ≤ (pollCodeGeneration getStatus isCancelled intervalMs
        deadlineMs errorCode).elapsedMs ∧
    (pollCodeGeneration getStatus isCancelled intervalMs deadlineMs errorCode).elapsedMs
      < deadlineMs + intervalMs ∧
    (∀ (cid uid : String) (roots : List String)
       (resolveFolder : String → Option WorkspaceFolder) (archive : ResultArchive),
       (codeGenInteract ⟨some cid, some uid, roots⟩ ⟨getStatus, archive⟩ resolveFolder
           isCancelled intervalMs deadlineMs errorCode).result
         = .error (.PollTimeout errorCode)) := by
  have hfuel : deadlineMs ≤ 0 + (deadlineMs / intervalMs + 1) * intervalMs := by
    have hlt : deadlineMs < (deadlineMs / intervalMs + 1) * intervalMs := by
      calc deadlineMs = intervalMs * (deadlineMs / intervalMs) + deadlineMs % intervalMs :=
            (Nat.div_add_mod deadlineMs intervalMs).symm
        _ < intervalMs * (deadlineMs / intervalMs) + intervalMs :=
            Nat.add_lt_add_left (Nat.mod_lt deadlineMs hpos) _
        _ = (deadlineMs / intervalMs + 1) * intervalMs := by ring
    omega
  have hmain := pollCodeGenLoop_timeout getStatus isCancelled intervalMs deadlineMs
    errorCode hnc hst (deadlineMs / intervalMs + 1) 0 0 [] (by omega) hfuel
  have ht : (pollCodeGeneration getStatus isCancelled intervalMs deadlineMs
      errorCode).outcome = PollOutcome.TimedOut errorCode := hmain.1
  refine ⟨ht, hmain.2.1, hmain.2.2, ?_⟩
  intro cid uid roots resolveFolder archive
  unfold codeGenInteract
  dsimp only
  rw [ht]

/-- Witness for C5: the status stub that always reports `InProgress`, 10 ms
interval, 25 ms deadline — the poll times out at 30 ms with the
caller-supplied code `test_timeout`, and `interact` fails with
`PollTimeout "test_timeout"`. -/
theorem poll_timeout_bound_witness :
    (pollCodeGeneration (fun _ => ⟨CodeGenerationStatus.InProgress, 0, 1⟩) (fun _ => false)
        10 25 "test_timeout").outcome = PollOutcome.TimedOut "test_timeout" ∧
    25 ≤ (pollCodeGeneration (fun _ => ⟨CodeGenerationStatus.InProgress, 0, 1⟩)
        (fun _ => false) 10 25 "test_timeout").elapsedMs ∧
    (pollCodeGeneration (fun _ => ⟨CodeGenerationStatus.InProgress, 0, 1⟩)
        (fun _ => false) 10 25 "test_timeout").elapsedMs < 25 + 10 ∧
    (∀ (cid uid : String) (roots : List String)
       (resolveFolder : String → Option WorkspaceFolder) (archive : ResultArchive),
       (codeGenInteract ⟨some cid, some uid, roots⟩
           ⟨fun _ => ⟨CodeGenerationStatus.InProgress, 0, 1⟩, archive⟩ resolveFolder
           (fun _ => false) 10 25 "test_timeout").result
         = .error (.PollTimeout "test_timeout")) :=
  poll_timeout_bound (fun _ => ⟨CodeGenerationStatus.InProgress, 0, 1⟩) (fun _ => false)
    10 25 "test_timeout" (by decide) (fun _ => rfl) (fun _ => rfl)

theorem pollCodeGenLoop_calls_uncancelled (getStatus : Nat → CodeGenerationResult)
    (isCancelled : Nat → Bool) (intervalMs deadlineMs : Nat) (errorCode : String) :
    ∀ (fuel iter elapsed : Nat) (calls : List Nat),
      (∀ j ∈ calls, isCancelled j = false) →
      ∀ j ∈ (pollCodeGenLoop getStatus isCancelled intervalMs deadlineMs errorCode
          fuel iter elapsed calls).statusCalls, isCancelled j = false := by
  intro fuel
  induction fuel with
  | zero =>
    intro iter elapsed calls hc
    unfold pollCodeGenLoop
    by_cases h1 : isCancelled iter = true
    · rw [if_pos h1]
      intro j hj
      exact hc j (List.mem_reverse.mp hj)
    · rw [if_neg h1]
      by_cases h2 : deadlineMs ≤ elapsed
      · rw [if_pos h2]
        intro j hj
        exact hc j (List.mem_reverse.mp hj)
      · rw [if_neg h2]
        intro j hj
        exact hc j (List.mem_reverse.mp hj)
  | succ fuel' ih =>
    intro iter elapsed calls hc
    unfold pollCodeGenLoop
    by_cases h1 : isCancelled iter = true
    · rw [if_pos h1]
      intro j hj
      exact hc j (List.mem_reverse.mp hj)
    · rw [if_neg h1]
      have hcf : isCancelled iter = false := by
        rcases Bool.eq_false_or_eq_true (isCancelled iter) with hb | hb
        · exact absurd hb h1
        · exact hb
      have hc' : ∀ j ∈ iter :: calls, isCancelled j = false := by
        intro j hj
        rcases List.mem_cons.mp hj with rfl | hj
        · exact hcf
        · exact hc j hj
      by_cases h2 : deadlineMs ≤ elapsed
      · rw [if_pos h2]
        intro j hj
        exact hc j (List.mem_reverse.mp hj)
      · rw [if_neg h2]
        dsimp only
        cases hs : (getStatus iter).status with
        | InProgress => exact ih (iter + 1) (elapsed + intervalMs) (iter :: calls) hc'
        | Complete =>
          intro j hj
          exact hc' j (List.mem_reverse.mp hj)
        | Failed =>
          intro j hj
          exact hc' j (List.mem_reverse.mp hj)

theorem pollCodeGenLoop_cancelled (getStatus : Nat → CodeGenerationResult)
    (isCancelled : Nat → Bool) (intervalMs deadlineMs : Nat) (errorCode : String)
    (k : Nat) (hk : isCancelled k = true)
    (hst : ∀ j, j < k → (getStatus j).status = CodeGenerationStatus.InProgress)
    (hd : k * intervalMs < deadlineMs) :
    ∀ (fuel iter : Nat) (calls : List Nat),
      iter ≤ k →
      k + 1 ≤ fuel + iter →
      (∀ j ∈ calls, j < iter) →
      (pollCodeGenLoop getStatus isCancelled intervalMs deadlineMs errorCode
          fuel iter (iter * intervalMs) calls).outcome = PollOutcome.Cancelled ∧
      ∀ j ∈ (pollCodeGenLoop getStatus isCancelled intervalMs deadlineMs errorCode
          fuel iter (iter * intervalMs) calls).statusCalls, j < k := by
  intro fuel
  induction fuel with
  | zero =>
    intro iter calls hik hfuel hcalls
    by_cases h1 : isCancelled iter = true
    · unfold pollCodeGenLoop
      rw [if_pos h1]
      refine ⟨rfl, ?_⟩
      intro j hj
      exact Nat.lt_of_lt_of_le (hcalls j (List.mem_reverse.mp hj)) hik
    · exfalso
      have : iter = k := by omega
      exact h1 (this ▸ hk)
  | succ fuel' ih =>
    intro iter calls hik hfuel hcalls
    by_cases h1 : isCancelled iter = true
    · unfold pollCodeGenLoop
      rw [if_pos h1]
      refine ⟨rfl, ?_⟩
      intro j hj
      exact Nat.lt_of_lt_of_le (hcalls j (List.mem_reverse.mp hj)) hik
    · have hik' : iter < k := by
        rcases Nat.eq_or_lt_of_le hik with heq | hlt
        · exact absurd (heq ▸ hk) h1
        · exact hlt
      unfold pollCodeGenLoop
      rw [if_neg h1]
      have hde : ¬ (deadlineMs ≤ iter * intervalMs) := by
        have : iter * intervalMs ≤ k * intervalMs :=
          Nat.mul_le_mul_right _ (Nat.le_of_lt hik')
        omega
      rw [if_neg hde]
      dsimp only
      rw [hst iter hik']
      have hstep : iter * intervalMs + intervalMs = (iter + 1) * intervalMs := by ring
      rw [hstep]
      refine ih (iter + 1) (iter :: calls) hik' (by omega) ?_
      intro j hj
      rcases List.mem_cons.mp hj with rfl | hj
      · omega
      · exact Nat.lt_succ_of_lt (hcalls j hj)

/-- C6: cancellation precedence — no remote status query is ever issued in a
poll iteration that began with the token signaled; and if the token is
signaled at iteration `k`, the statuses before `k` are non-terminal and the
deadline has not yet passed at `k`, the poll result is `Cancelled` and every
remote call was issued before iteration `k`. -/
theorem poll_cancellation_precedence (getStatus : Nat → CodeGenerationResult)
    (isCancelled : Nat → Bool) (intervalMs deadlineMs : Nat) (errorCode : String) :
    (∀ j ∈ (pollCodeGeneration getStatus isCancelled intervalMs deadlineMs
        errorCode).statusCalls, isCancelled j = false) ∧
    (∀ k : Nat, 0 < intervalMs → isCancelled k = true →
       (∀ j, j < k → (getStatus j).status = CodeGenerationStatus.InProgress) →
       k * intervalMs < deadlineMs →
       (pollCodeGeneration getStatus isCancelled intervalMs deadlineMs errorCode).outcome
         = PollOutcome.Cancelled ∧
       ∀ j ∈ (pollCodeGeneration getStatus isCancelled intervalMs deadlineMs
           errorCode).statusCalls, j < k) := by
  constructor
  · exact pollCodeGenLoop_calls_uncancelled getStatus isCancelled intervalMs deadlineMs
      errorCode (deadlineMs / intervalMs + 1) 0 0 [] (by intro j hj; cases hj)
  · intro k hpos hk hst hd
    have hfuel : k + 1 ≤ (deadlineMs / intervalMs + 1) + 0 := by
      have : k ≤ deadlineMs / intervalMs :=
        (Nat.le_div_iff_mul_le hpos).mpr (Nat.le_of_lt hd)
      omega
    have hb := pollCodeGenLoop_cancelled getStatus isCancelled intervalMs deadlineMs
      errorCode k hk hst hd (deadlineMs / intervalMs + 1) 0 []
      (Nat.zero_le k) hfuel (by intro j hj; cases hj)
    rw [Nat.zero_mul] at hb
    exact hb

/-- Witness for C6: token signaled from iteration 1 on, statuses always
in-progress, 10 ms interval, 100 ms deadline — the poll is `Cancelled` and
the only remote call happened at iteration 0, before the signal. -/
theorem poll_cancellation_precedence_witness :
    (∀ j ∈ (pollCodeGeneration (fun _ => ⟨CodeGenerationStatus.InProgress, 0, 1⟩)
        (fun j => decide (1 ≤ j)) 10 100 "test_timeout").statusCalls,
       (fun j => decide (1 ≤ j)) j = false) ∧
    ((pollCodeGeneration (fun _ => ⟨CodeGenerationStatus.InProgress, 0, 1⟩)
        (fun j => decide (1 ≤ j)) 10 100 "test_timeout").outcome = PollOutcome.Cancelled ∧
     ∀ j ∈ (pollCodeGeneration (fun _ => ⟨CodeGenerationStatus.InProgress, 0, 1⟩)
        (fun j => decide (1 ≤ j)) 10 100 "test_timeout").statusCalls, j < 1) :=
  ⟨(poll_cancellation_precedence (fun _ => ⟨CodeGenerationStatus.InProgress, 0, 1⟩)
      (fun j => decide (1 ≤ j)) 10 100 "test_timeout").1,
   (poll_cancellation_precedence (fun _ => ⟨CodeGenerationStatus.InProgress, 0, 1⟩)
      (fun j => decide (1 ≤ j)) 10 100 "test_timeout").2 1 (by decide) (by decide)
     (fun j hj => rfl) (by decide)⟩

/-- C7: the Reconciler is a deterministic pure function — it is a pure Lean
function of its inputs (so two reconciliations of the same Result Archive
with the same workspace resolution are one and the same value, and the
inputs cannot be mutated), and the output order equals the archive's own
entry order: the file-change records follow `newFileContents` with only the
reserved log entries removed, and the deleted-file records follow
`deletedFiles` exactly. -/
theorem reconcile_deterministic (uploadId : String) (workspaceRoots : List String)
    (resolveFolder : String → Option WorkspaceFolder) (archive : ResultArchive)
    (out : GenerateCodeOutput)
    (h : generateCodeResults uploadId workspaceRoots resolveFolder archive = .ok out) :
    generateCodeResults uploadId workspaceRoots resolveFolder archive
      = generateCodeResults uploadId workspaceRoots resolveFolder archive ∧
    out.newFiles.map (fun f => f.zipFilePath)
      = (archive.newFileContents.filter
          fun f => !(f.zipFilePath == RunCommandLogFileName)).map (fun e => e.zipFilePath) ∧
    out.deletedFiles.map (fun f => f.zipFilePath) = archive.deletedFiles := by
  obtain ⟨hreg, hdel, href, hlog, hwrite⟩ :=
    generateCodeResults_ok uploadId workspaceRoots resolveFolder archive out h
  exact ⟨rfl, registerNewFiles_map_zip _ _ _ _ hreg, getDeletedFileInfos_map_zip _ _ _ _ hdel⟩

/-- Witness for C7 at the with-log archive fixture. -/
theorem reconcile_deterministic_witness :
    generateCodeResults "upload_test" ["/path/to/testworkspacefolder"] testResolve
        testArchiveWithLog
      = generateCodeResults "upload_test" ["/path/to/testworkspacefolder"] testResolve
        testArchiveWithLog ∧
    testOutWithLog.newFiles.map (fun f => f.zipFilePath)
      = (testArchiveWithLog.newFileContents.filter
          fun f => !(f.zipFilePath == RunCommandLogFileName)).map (fun e => e.zipFilePath) ∧
    testOutWithLog.deletedFiles.map (fun f => f.zipFilePath)
      = testArchiveWithLog.deletedFiles :=
  reconcile_deterministic "upload_test" ["/path/to/testworkspacefolder"] testResolve
    testArchiveWithLog testOutWithLog (by decide)

/-- C8: for every CodeGen-family state, when `interact` is called while the
conversation id or the upload id is not yet established, it fails with
`NotStarted` and issues no remote call at all (no start, no status query,
no fetch). -/
theorem interact_not_started (config : CodeGenConfig) (service : RemoteService)
    (resolveFolder : String → Option WorkspaceFolder) (isCancelled : Nat → Bool)
    (intervalMs deadlineMs : Nat) (errorCode : String)
    (h : config.conversationId = none ∨ config.uploadId = none) :
    (codeGenInteract config service resolveFolder isCancelled intervalMs deadlineMs
        errorCode).result = .error .NotStarted ∧
    (codeGenInteract config service resolveFolder isCancelled intervalMs deadlineMs
        errorCode).remoteCalls = [] := by
  obtain ⟨oc, ou, roots⟩ := config
  rcases h with h | h
  · dsimp only at h
    subst h
    exact ⟨rfl, rfl⟩
  · dsimp only at h
    subst h
    cases oc with
    | none => exact ⟨rfl, rfl⟩
    | some cid => exact ⟨rfl, rfl⟩

/-- Witness for C8: a config with no established ids fails with `NotStarted`
and an empty remote-call trace. -/
theorem interact_not_started_witness :
    (codeGenInteract ⟨none, none, []⟩
        ⟨fun _ => ⟨CodeGenerationStatus.InProgress, 0, 1⟩, testArchiveNoLog⟩ testResolve
        (fun _ => false) 10 25 "test_timeout").result = .error .NotStarted ∧
    (codeGenInteract ⟨none, none, []⟩
        ⟨fun _ => ⟨CodeGenerationStatus.InProgress, 0, 1⟩, testArchiveNoLog⟩ testResolve
        (fun _ => false) 10 25 "test_timeout").remoteCalls = [] :=
  interact_not_started ⟨none, none, []⟩
    ⟨fun _ => ⟨CodeGenerationStatus.InProgress, 0, 1⟩, testArchiveNoLog⟩ testResolve
    (fun _ => false) 10 25 "test_timeout" (Or.inl rfl)

/-- C10: every file-change record `generateCode` produces for a new file is
created with `changeApplied = false` and `rejected = false`; reconciliation
itself never marks a record applied or rejected. -/
theorem new_file_records_unapplied (uploadId : String) (workspaceRoots : List String)
    (resolveFolder : String → Option WorkspaceFolder) (archive : ResultArchive)
    (out : GenerateCodeOutput)
    (h : generateCodeResults uploadId workspaceRoots resolveFolder archive = .ok out) :
    ∀ f ∈ out.newFiles, f.changeApplied = false ∧ f.rejected = false := by
  intro f hf
  obtain ⟨hreg, _, _, _, _⟩ :=
    generateCodeResults_ok uploadId workspaceRoots resolveFolder archive out h
  obtain ⟨e, he, hee⟩ := registerNewFiles_mem _ _ _ _ hreg f hf
  obtain ⟨_, _, h3, h4, _⟩ := toNewFileInfo_fields _ _ _ _ hee
  exact ⟨h3, h4⟩

/-- Witness for C10 at the with-log archive fixture: the `other.ts` record
is neither applied nor rejected. -/
theorem new_file_records_unapplied_witness :
    testOtherRecord.changeApplied = false ∧ testOtherRecord.rejected = false :=
  new_file_records_unapplied "upload_test" ["/path/to/testworkspacefolder"] testResolve
    testArchiveWithLog testOutWithLog (by decide) testOtherRecord (by decide)

theorem isPrefixOfAppendSelf (a t : List Char) : a.isPrefixOf (a ++ t) = true := by
  induction a with
  | nil => simp [List.isPrefixOf]
  | cons x xs ih => simp [List.isPrefixOf, ih]

theorem isPrefixOfComparable (a b c : List Char) (ha : a.isPrefixOf c = true)
    (hb : b.isPrefixOf c = true) :
    a.isPrefixOf b = true ∨ b.isPrefixOf a = true := by
  induction a generalizing b c with
  | nil => left; simp [List.isPrefixOf]
  | cons x xs ih =>
    cases c with
    | nil => simp [List.isPrefixOf] at ha
    | cons z cs =>
      cases b with
      | nil => right; simp [List.isPrefixOf]
      | cons y ys =>
        simp only [List.isPrefixOf, Bool.and_eq_true, beq_iff_eq] at ha hb
        obtain ⟨rfl, ha2⟩ := ha
        obtain ⟨rfl, hb2⟩ := hb
        rcases ih ys cs ha2 hb2 with hcomp | hcomp
        · left; simp [List.isPrefixOf, hcomp]
        · right; simp [List.isPrefixOf, hcomp]

theorem virtualMemoryUri_data (u rel : String) :
    (virtualMemoryUri u rel).data = ("/" ++ u ++ "/").data ++ rel.data := by
  simp [virtualMemoryUri, String.data_append, List.append_assoc]

/-- C9: the Reconciler computes every non-excluded record's virtual location
by joining the upload id as a namespace segment with the entry's relative
path (concretely, upload id `upload_test` and relative path `other.ts` give
`/upload_test/other.ts`), and whenever a workspace root is prefix-unrelated
to the upload-id namespace, the virtual location is distinct from that root
and from every filesystem path under it. -/
theorem virtual_location_join :
    virtualMemoryUri "upload_test" "other.ts" = "/upload_test/other.ts" ∧
    (∀ (uploadId : String) (workspaceRoots : List String)
       (resolveFolder : String → Option WorkspaceFolder) (archive : ResultArchive)
       (out : GenerateCodeOutput),
       generateCodeResults uploadId workspaceRoots resolveFolder archive = .ok out →
       ∀ f ∈ out.newFiles,
         f.virtualMemoryUri = "/" ++ uploadId ++ "/" ++ f.relativePath) ∧
    (∀ (uploadId rel root : String),
       strStartsWith ("/" ++ uploadId ++ "/") (root ++ "/") = false →
       strStartsWith (root ++ "/") ("/" ++ uploadId ++ "/") = false →
       virtualMemoryUri uploadId rel ≠ root ∧
       strStartsWith (root ++ "/") (virtualMemoryUri uploadId rel) = false) := by
  refine ⟨by decide, ?_, ?_⟩
  · intro uploadId workspaceRoots resolveFolder archive out h f hf
    obtain ⟨hreg, _, _, _, _⟩ :=
      generateCodeResults_ok uploadId workspaceRoots resolveFolder archive out h
    obtain ⟨e, he, hee⟩ := registerNewFiles_mem _ _ _ _ hreg f hf
    exact (toNewFileInfo_fields _ _ _ _ hee).2.2.2.2
  · intro u rel root h1 h2
    constructor
    · intro heq
      have hcontra : strStartsWith ("/" ++ u ++ "/") (root ++ "/") = true := by
        unfold strStartsWith
        rw [← heq]
        have hdata : (virtualMemoryUri u rel ++ "/").data
            = ("/" ++ u ++ "/").data ++ (rel.data ++ "/".data) := by
          rw [String.data_append, virtualMemoryUri_data, List.append_assoc]
        rw [hdata]
        exact isPrefixOfAppendSelf _ _
      rw [h1] at hcontra
      cases hcontra
    · rcases Bool.eq_false_or_eq_true
          (strStartsWith (root ++ "/") (virtualMemoryUri u rel)) with hb | hb
      case inr => exact hb
      case inl =>
          exfalso
          unfold strStartsWith at hb
          have hup : ("/" ++ u ++ "/").data.isPrefixOf (virtualMemoryUri u rel).data = true := by
            rw [virtualMemoryUri_data]
            exact isPrefixOfAppendSelf _ _
          rcases isPrefixOfComparable _ _ _ hb hup with hcomp | hcomp
          · unfold strStartsWith at h2
            rw [h2] at hcomp
            cases hcomp
          · unfold strStartsWith at h1
            rw [h1] at hcomp
            cases hcomp

/-- Witness for C9 at the with-log fixture: the `other.ts` record's virtual
location is the upload-id join, and it is distinct from (and not under) the
test workspace root. -/
theorem virtual_location_join_witness :
    virtualMemoryUri "upload_test" "other.ts" = "/upload_test/other.ts" ∧
    testOtherRecord.virtualMemoryUri
      = "/" ++ "upload_test" ++ "/" ++ testOtherRecord.relativePath ∧
    (virtualMemoryUri "upload_test" "other.ts" ≠ "/path/to/testworkspacefolder" ∧
     strStartsWith ("/path/to/testworkspacefolder" ++ "/")
       (virtualMemoryUri "upload_test" "other.ts") = false) :=
  ⟨virtual_location_join.1,
   virtual_location_join.2.1 "upload_test" ["/path/to/testworkspacefolder"] testResolve
     testArchiveWithLog testOutWithLog (by decide) testOtherRecord (by decide),
   virtual_location_join.2.2 "upload_test" "other.ts" "/path/to/testworkspacefolder"
     (by decide) (by decide)⟩
